import Mathlib

/-!
# Verification of the `roo` blanket-recommendation app (`src/app.js`)

Shallow embedding of the pure core of `src/app.js`:

* JS values relevant to the app are modelled by `JVal`; JS numbers by
  `JsNum` (finite rationals, `NaN`, signed infinities).  Floating point
  rounding plays no role in any verified property: the program only
  compares, never does arithmetic on, its numbers, so rationals model
  them faithfully on the operations used.
* `ruleMatches`, `pickRecommendation` — the recommendation engine.
* `computeTonightMetricsFromHourly` with `pickMin` / `pickMax` — metric
  reduction over the overnight window, and `getTonightWindow`.
* `deleteBlanket`, `deleteCombo` — dataset mutations.
* `sanitizeImportedData`, `importData` — backup import.

Timestamps are modelled by their epoch-millisecond parse (`Option Nat`,
`none` for an unparseable string), local civil time by milliseconds with
fixed-length days (no DST transitions).  `Number(string)` is modelled for
the decimal forms (optional sign, digits, optional fraction, `Infinity`);
hexadecimal and exponent literals are not modelled.  JS rendering of
non-integer numbers to strings is approximated; no verified property
depends on it.
-/

namespace Roo

/-- A JS number: a finite value (modelled as a rational), `NaN`, or a
signed infinity. -/
inductive JsNum where
  | fin (q : ℚ)
  | nan
  | inf (pos : Bool)
deriving DecidableEq, Repr

/-- A JS/JSON value as the app manipulates them. -/
inductive JVal where
  | null
  | undefined
  | bool (b : Bool)
  | num (n : JsNum)
  | str (s : String)
  | arr (elems : List JVal)
  | obj (fields : List (String × JVal))
deriving Repr

mutual

/-- Structural equality test on `JVal`. -/
def JVal.beq : JVal → JVal → Bool
  | .null, .null => true
  | .undefined, .undefined => true
  | .bool a, .bool b => a == b
  | .num a, .num b => a == b
  | .str a, .str b => a == b
  | .arr a, .arr b => JVal.beqList a b
  | .obj a, .obj b => JVal.beqFields a b
  | _, _ => false

/-- Structural equality test on lists of `JVal`. -/
def JVal.beqList : List JVal → List JVal → Bool
  | [], [] => true
  | a :: as, b :: bs => JVal.beq a b && JVal.beqList as bs
  | _, _ => false

/-- Structural equality test on field lists. -/
def JVal.beqFields : List (String × JVal) → List (String × JVal) → Bool
  | [], [] => true
  | (ka, va) :: as, (kb, vb) :: bs =>
    ka == kb && JVal.beq va vb && JVal.beqFields as bs
  | _, _ => false

end

mutual

/-- `JVal.beq` decides equality. -/
theorem JVal.beq_iff : ∀ a b : JVal, JVal.beq a b = true ↔ a = b
  | .null, .null => by simp [JVal.beq]
  | .undefined, .undefined => by simp [JVal.beq]
  | .bool a, .bool b => by simp [JVal.beq]
  | .num a, .num b => by simp [JVal.beq]
  | .str a, .str b => by simp [JVal.beq]
  | .arr a, .arr b => by simp [JVal.beq, JVal.beqList_iff a b]
  | .obj a, .obj b => by simp [JVal.beq, JVal.beqFields_iff a b]
  | .null, .undefined | .null, .bool _ | .null, .num _ | .null, .str _
  | .null, .arr _ | .null, .obj _ | .undefined, .null | .undefined, .bool _
  | .undefined, .num _ | .undefined, .str _ | .undefined, .arr _
  | .undefined, .obj _ | .bool _, .null | .bool _, .undefined
  | .bool _, .num _ | .bool _, .str _ | .bool _, .arr _ | .bool _, .obj _
  | .num _, .null | .num _, .undefined | .num _, .bool _ | .num _, .str _
  | .num _, .arr _ | .num _, .obj _ | .str _, .null | .str _, .undefined
  | .str _, .bool _ | .str _, .num _ | .str _, .arr _ | .str _, .obj _
  | .arr _, .null | .arr _, .undefined | .arr _, .bool _ | .arr _, .num _
  | .arr _, .str _ | .arr _, .obj _ | .obj _, .null | .obj _, .undefined
  | .obj _, .bool _ | .obj _, .num _ | .obj _, .str _ | .obj _, .arr _ =>
    by simp [JVal.beq]

/-- `JVal.beqList` decides equality of lists. -/
theorem JVal.beqList_iff : ∀ a b : List JVal, JVal.beqList a b = true ↔ a = b
  | [], [] => by simp [JVal.beqList]
  | a :: as, b :: bs => by
    simp [JVal.beqList, JVal.beq_iff a b, JVal.beqList_iff as bs]
  | [], _ :: _ => by simp [JVal.beqList]
  | _ :: _, [] => by simp [JVal.beqList]

/-- `JVal.beqFields` decides equality of field lists. -/
theorem JVal.beqFields_iff :
    ∀ a b : List (String × JVal), JVal.beqFields a b = true ↔ a = b
  | [], [] => by simp [JVal.beqFields]
  | (ka, va) :: as, (kb, vb) :: bs => by
    simp [JVal.beqFields, JVal.beq_iff va vb, JVal.beqFields_iff as bs,
      and_assoc]
  | [], _ :: _ => by simp [JVal.beqFields]
  | _ :: _, [] => by simp [JVal.beqFields]

end

instance : DecidableEq JVal := fun a b =>
  decidable_of_iff (JVal.beq a b = true) (JVal.beq_iff a b)

/-- JS `typeof v === "object"` (true for `null`, arrays and objects). -/
def typeofIsObject : JVal → Bool
  | .null => true
  | .arr _ => true
  | .obj _ => true
  | _ => false

/-- JS truthiness (`Boolean(v)`). -/
def truthy : JVal → Bool
  | .null => false
  | .undefined => false
  | .bool b => b
  | .num (.fin q) => decide (q ≠ 0)
  | .num .nan => false
  | .num (.inf _) => true
  | .str s => decide (s ≠ "")
  | .arr _ => true
  | .obj _ => true

/-- Property read `v[k]` for a string key: on objects the last binding of
the key wins (JSON duplicate-key semantics); everything else — including
arrays, whose numeric index properties are not consulted by the app under
non-numeric keys — yields `undefined`. -/
def objGet (v : JVal) (k : String) : JVal :=
  match v with
  | .obj fields =>
    match fields.reverse.find? (fun p => p.1 = k) with
    | some p => p.2
    | none => .undefined
  | _ => .undefined

/-- `isFiniteNumber` from `app.js`: a value of type number that is finite. -/
def isFiniteNumber : JVal → Bool
  | .num (.fin _) => true
  | _ => false

/-- The finite rational of a finite number value, if any. -/
def finiteOf : JVal → Option ℚ
  | .num (.fin q) => some q
  | _ => none

/-- The finite rational of a `JsNum`, if any. -/
def JsNum.finiteOf : JsNum → Option ℚ
  | .fin q => some q
  | _ => none

/-- Rendering of a JS number to a string (`String(n)`).  Integers are
rendered exactly; other rationals use Lean's `a/b` rendering, an
approximation of JS float formatting that no verified property relies
on. -/
def numToString : JsNum → String
  | .nan => "NaN"
  | .inf true => "Infinity"
  | .inf false => "-Infinity"
  | .fin q => if q.den = 1 then toString q.num else toString q

/-- Characters treated as whitespace by JS trimming and string-to-number
coercion (the common ASCII subset; exotic Unicode spaces are not
modelled). -/
def jsWs (c : Char) : Bool :=
  c = ' ' ∨ c = '\t' ∨ c = '\n' ∨ c = '\r'

/-- JS `String.prototype.trim()`: strip leading and trailing whitespace. -/
def jsTrim (s : String) : String :=
  ⟨((s.toList.dropWhile jsWs).reverse.dropWhile jsWs).reverse⟩

/-- Digits to a natural number (`none` if empty or a non-digit occurs). -/
def digitsToNat : List Char → Option Nat
  | [] => none
  | cs => cs.foldl
      (fun acc c => match acc with
        | none => none
        | some n => if c.isDigit then some (n * 10 + (c.toNat - '0'.toNat)) else none)
      (some 0)

/-- Parse an unsigned decimal literal `digits [. digits]` (also `.5`,
`5.`) into a rational. -/
def parseDecimal (cs : List Char) : Option ℚ :=
  let intPart := cs.takeWhile Char.isDigit
  let rest := cs.dropWhile Char.isDigit
  match rest with
  | [] => (digitsToNat intPart).map (fun n => (n : ℚ))
  | '.' :: frac =>
    if frac.all Char.isDigit ∧ (intPart ≠ [] ∨ frac ≠ []) then
      match digitsToNat intPart, digitsToNat frac with
      | some i, some f => some ((i : ℚ) + (f : ℚ) / ((10 : ℚ) ^ frac.length))
      | some i, none => if frac = [] then some ((i : ℚ)) else none
      | none, some f => some ((f : ℚ) / ((10 : ℚ) ^ frac.length))
      | none, none => none
    else none
  | _ => none

/-- JS `Number(string)`: trims whitespace, `""` is `0`, decimal literals
with optional sign, `Infinity` forms; anything else is `NaN`
(hexadecimal and exponent literals are not modelled). -/
def strToNum (s : String) : JsNum :=
  let cs := ((s.toList.dropWhile jsWs).reverse.dropWhile jsWs).reverse
  match cs with
  | [] => .fin 0
  | _ =>
    let (neg, body) :=
      match cs with
      | '-' :: rest => (true, rest)
      | '+' :: rest => (false, rest)
      | rest => (false, rest)
    if body = "Infinity".toList then .inf (!neg)
    else
      match parseDecimal body with
      | some q => .fin (if neg then -q else q)
      | none => .nan

mutual

/-- `Array.prototype.join(",")` over the elements (used by JS
string-coercion of arrays). -/
def joinElems : List JVal → String
  | [] => ""
  | x :: xs => elemToString x ++ joinTail xs

/-- Tail of a join: each further element preceded by a comma. -/
def joinTail : List JVal → String
  | [] => ""
  | x :: xs => "," ++ elemToString x ++ joinTail xs

/-- An array element as `join` renders it: `null` and `undefined` become
empty, everything else its string coercion. -/
def elemToString : JVal → String
  | .null => ""
  | .undefined => ""
  | .bool b => if b then "true" else "false"
  | .num n => numToString n
  | .str s => s
  | .arr l => joinElems l
  | .obj _ => "[object Object]"

end

/-- JS `String(v)` string coercion. -/
def stringOf : JVal → String
  | .null => "null"
  | .undefined => "undefined"
  | .bool b => if b then "true" else "false"
  | .num n => numToString n
  | .str s => s
  | .arr l => joinElems l
  | .obj _ => "[object Object]"

/-- JS `Number(v)` numeric coercion (arrays coerce through their string
join; plain objects give `NaN`). -/
def jsToNumber : JVal → JsNum
  | .num n => n
  | .bool b => .fin (if b then 1 else 0)
  | .null => .fin 0
  | .undefined => .nan
  | .str s => strToNum s
  | .arr l => strToNum (joinElems l)
  | .obj _ => .nan

/-! ## Metrics and the recommendation engine -/

/-- The metrics snapshot `{minTempF, minFeelsF, maxPrecipProb, maxWindMph,
wetRisk}`.  Fields hold general JS values: as computed they are finite
numbers, `null` (no finite reading) or a boolean, but hydrated snapshots
from storage are unchecked JSON. -/
structure Metrics where
  minTempF : JVal
  minFeelsF : JVal
  maxPrecipProb : JVal
  maxWindMph : JVal
  wetRisk : JVal
deriving Repr, DecidableEq

/-- Property read `metrics[field]` on a metrics snapshot, after JS coerces
the key to a string (prototype-chain properties are not modelled: the app
never uses a key that would hit them). -/
def metricsGet (m : Metrics) (k : String) : JVal :=
  if k = "minTempF" then m.minTempF
  else if k = "minFeelsF" then m.minFeelsF
  else if k = "maxPrecipProb" then m.maxPrecipProb
  else if k = "maxWindMph" then m.maxWindMph
  else if k = "wetRisk" then m.wetRisk
  else .undefined

/-- The body of one iteration of the condition loop of `ruleMatches`
(`app.js` 228–255), over the three property reads `cond.field`,
`cond.op`, `cond.value`: `field === "wetRisk"` selects the boolean
branch, anything else is looked up on the metrics (the JS property key
coerced to a string) and compared numerically under finiteness guards. -/
def condHoldsCore (m : Metrics) (field op value : JVal) : Bool :=
  match field with
  | .str "wetRisk" =>
    match op with
    | .str "is" => truthy m.wetRisk == truthy value
    | _ => false
  | _ =>
    let left := metricsGet m (stringOf field)
    let right := jsToNumber value
    match finiteOf left, right.finiteOf with
    | some l, some r =>
      match op with
      | .str "<=" => decide (l ≤ r)
      | .str "<" => decide (l < r)
      | .str ">=" => decide (r ≤ l)
      | .str ">" => decide (r < l)
      | _ => false
    | _, _ => false

/-- One iteration of the condition loop of `ruleMatches` (`app.js`
226–256): `true` means the loop continues, `false` that `ruleMatches`
returns `false` at this condition.  `ruleMatches` is their conjunction,
exactly as the early-return loop computes it. -/
def condHolds (cond : JVal) (m : Metrics) : Bool :=
  if truthy cond && typeofIsObject cond then
    condHoldsCore m (objGet cond "field") (objGet cond "op") (objGet cond "value")
  else false

/-- `rule.conditions` as the loop sees it: the array when it is one,
otherwise the empty list (`app.js` 224). -/
def ruleCondList (rule : JVal) : List JVal :=
  match objGet rule "conditions" with
  | .arr l => l
  | _ => []

/-- `ruleMatches(rule, metrics)` from `app.js` 222–259. -/
def ruleMatches (rule : JVal) (m : Metrics) : Bool :=
  if truthy rule && typeofIsObject rule then
    (ruleCondList rule).all (fun c => condHolds c m)
  else false

/-! ## The dataset -/

/-- A blanket record `{id, name, notes}`. -/
structure Blanket where
  id : String
  name : String
  notes : String
deriving Repr, DecidableEq

/-- A combo record `{id, name, blanketIds}`. -/
structure Combo where
  id : String
  name : String
  blanketIds : List String
deriving Repr, DecidableEq

/-- A condition record `{field, op, value}` as the sanitizer produces it
(string field and op; the value is arbitrary JSON). -/
structure Cond where
  field : String
  op : String
  value : JVal
deriving Repr, DecidableEq

/-- A rule record `{id, name, comboId, conditions}`. -/
structure Rule where
  id : String
  name : String
  comboId : String
  conditions : List Cond
deriving Repr, DecidableEq

/-- A condition record as the JS object `ruleMatches` reads. -/
def Cond.toJVal (c : Cond) : JVal :=
  .obj [("field", .str c.field), ("op", .str c.op), ("value", c.value)]

/-- A rule record as the JS object `ruleMatches` reads. -/
def Rule.toJVal (r : Rule) : JVal :=
  .obj [("id", .str r.id), ("name", .str r.name), ("comboId", .str r.comboId),
        ("conditions", .arr (r.conditions.map Cond.toJVal))]

/-- The persisted dataset (the UI/render parts of the app state are out of
scope).  `lastForecast` is kept as raw JSON, as the program does. -/
structure Data where
  blankets : List Blanket
  combos : List Combo
  rules : List Rule
  defaultComboId : String
  lastForecast : JVal
deriving Repr, DecidableEq

/-- `emptyData()` from `app.js` 32–39 (the pure fields). -/
def emptyData : Data :=
  { blankets := [], combos := [], rules := [], defaultComboId := "",
    lastForecast := .null }

/-- Lookup in `combosById = new Map(data.combos.map(c => [c.id, c]))`:
`Map` insertion lets a later entry with the same id overwrite an earlier
one, so the last combo with the id wins. -/
def comboLookup (combos : List Combo) (cid : String) : Option Combo :=
  combos.foldl (fun acc c => if c.id = cid then some c else acc) none

/-- The result of `pickRecommendation`: `{kind:"rule"}` with the rule and
its (possibly missing) combo, `{kind:"default"}`, or `{kind:"none"}`. -/
inductive Recommendation where
  | ofRule (r : Rule) (combo : Option Combo)
  | ofDefault (c : Combo)
  | noneRec
deriving Repr, DecidableEq

/-- The rule loop of `pickRecommendation` (`app.js` 263–267) followed by
the default-combo fallback (269–273). -/
def pickRecommendationGo (combos : List Combo) (defaultComboId : String)
    (m : Metrics) : List Rule → Recommendation
  | [] =>
    match (if defaultComboId ≠ "" then comboLookup combos defaultComboId else none) with
    | some c => .ofDefault c
    | none => .noneRec
  | r :: rest =>
    if ruleMatches r.toJVal m then .ofRule r (comboLookup combos r.comboId)
    else pickRecommendationGo combos defaultComboId m rest

/-- `pickRecommendation(data, metrics)` from `app.js` 261–274. -/
def pickRecommendation (d : Data) (m : Metrics) : Recommendation :=
  pickRecommendationGo d.combos d.defaultComboId m d.rules

/-! ## Tonight window and metric reduction

Local civil time is modelled as milliseconds, with fixed-length days
(no DST transitions), so `Date` values and their local clock readings
coincide.  A timestamp string is modelled by its parse
(`new Date(s).getTime()`): `some` epoch-milliseconds, or `none` when the
parse is `NaN`. -/

/-- Milliseconds per day. -/
def msPerDay : Nat := 24 * 60 * 60 * 1000

/-- Milliseconds per hour. -/
def msPerHour : Nat := 60 * 60 * 1000

/-- `d.setHours(h, 0, 0, 0)`: same local day, clock set to `h:00:00.000`. -/
def setHoursMs (t : Nat) (h : Nat) : Nat :=
  t / msPerDay * msPerDay + h * msPerHour

/-- The window `{start, end}` (the `label` field is presentation only). -/
structure TonightWindow where
  start : Nat
  stop : Nat
deriving Repr, DecidableEq

/-- `getTonightWindow(now)` from `app.js` 87–100: 19:00 of `now`'s local
day through 09:00 of the next day. -/
def getTonightWindow (now : Nat) : TonightWindow :=
  let start := setHoursMs now 19
  let stop := setHoursMs (start + msPerDay) 9
  { start := start, stop := stop }

/-- The index-selection loop of `computeTonightMetricsFromHourly`
(`app.js` 123–129): indices whose timestamp parses and falls in
`[windowStart, windowEnd)`, in order. -/
def selectIndices (times : List (Option Nat)) (windowStart windowEnd : Nat) :
    List Nat :=
  (List.range times.length).filter (fun i =>
    match times.getD i none with
    | some ms => decide (windowStart ≤ ms) && decide (ms < windowEnd)
    | none => false)

/-- Array read `arr[i]` (`undefined` past the end). -/
def jvIdx (arr : List JVal) (i : Nat) : JVal :=
  arr.getD i .undefined

/-- `pickMin(arr)` from `app.js` 135–143, over the selected indices:
least finite reading, or `none` (JS `null`) when there is none. -/
def pickMin (indices : List Nat) (arr : List JVal) : Option ℚ :=
  indices.foldl
    (fun best i =>
      match finiteOf (jvIdx arr i) with
      | some v =>
        match best with
        | none => some v
        | some b => if v < b then some v else some b
      | none => best)
    none

/-- `pickMax(arr)` from `app.js` 145–153, over the selected indices. -/
def pickMax (indices : List Nat) (arr : List JVal) : Option ℚ :=
  indices.foldl
    (fun best i =>
      match finiteOf (jvIdx arr i) with
      | some v =>
        match best with
        | none => some v
        | some b => if b < v then some v else some b
      | none => best)
    none

/-- A computed optional metric as a JS value: a finite number, or `null`. -/
def optNum : Option ℚ → JVal
  | some q => .num (.fin q)
  | none => .null

/-- The finite readings a series holds at the given indices, in order —
what `pickMin`/`pickMax` fold over after skipping missing and non-finite
entries. -/
def finiteReadings (indices : List Nat) (arr : List JVal) : List ℚ :=
  indices.filterMap (fun i => finiteOf (jvIdx arr i))

/-- The accumulator update of `pickMin` on a finite reading. -/
def minStep (best : Option ℚ) (v : ℚ) : Option ℚ :=
  match best with
  | none => some v
  | some b => if v < b then some v else some b

/-- The accumulator update of `pickMax` on a finite reading. -/
def maxStep (best : Option ℚ) (v : ℚ) : Option ℚ :=
  match best with
  | none => some v
  | some b => if b < v then some v else some b

/-- The `hourly` object of an Open-Meteo response: each field is `some`
parallel array when present and an array, else `none` (which includes a
missing or non-object `hourly`, whose every field read is undefined). -/
structure Hourly where
  time : Option (List (Option Nat))
  temperature_2m : Option (List JVal)
  apparent_temperature : Option (List JVal)
  precipitation_probability : Option (List JVal)
  windspeed_10m : Option (List JVal)
deriving Repr

/-- `computeTonightMetricsFromHourly(hourly, windowStart, windowEnd)` from
`app.js` 112–169; `throw` is modelled by `Except.error` with the thrown
message. -/
def computeTonightMetricsFromHourly (hourly : Hourly)
    (windowStart windowEnd : Nat) : Except String Metrics :=
  match hourly.time, hourly.temperature_2m, hourly.apparent_temperature,
      hourly.precipitation_probability, hourly.windspeed_10m with
  | some times, some temps, some feels, some precip, some wind =>
    let indices := selectIndices times windowStart windowEnd
    if indices = [] then
      .error "No hourly data found for the tonight window."
    else
      let maxPrecipProb := pickMax indices precip
      .ok
        { minTempF := optNum (pickMin indices temps)
          minFeelsF := optNum (pickMin indices feels)
          maxPrecipProb := optNum maxPrecipProb
          maxWindMph := optNum (pickMax indices wind)
          wetRisk := .bool
            (match maxPrecipProb with
             | some p => decide (50 ≤ p)
             | none => false) }
  | _, _, _, _, _ =>
    .error "Unexpected Open‑Meteo response (missing hourly fields)."

/-! ## Dataset mutations

`deleteBlanket` / `deleteCombo` (`app.js` 775–789, 809–824) proceed only
when the id names an existing record and the user confirms the dialog;
the confirmed path is what is modelled (a declined dialog leaves the data
unchanged, like the missing-id case).  `saveData` and re-rendering act on
the unchanged resulting dataset and are out of scope. -/

/-- `deleteBlanket(id)`: drop the blanket and scrub the id from every
combo's `blanketIds` (a non-array `blanketIds` is replaced by `[]`, which
the `List`-typed model renders as the identity case). -/
def deleteBlanket (id : String) (d : Data) : Data :=
  if d.blankets.any (fun x => x.id = id) then
    { d with
      blankets := d.blankets.filter (fun x => x.id ≠ id)
      combos := d.combos.map (fun c =>
        { c with blanketIds := c.blanketIds.filter (fun bid => bid ≠ id) }) }
  else d

/-- `deleteCombo(id)`: drop the combo, clear a matching `defaultComboId`,
and blank the `comboId` of every rule that referenced it. -/
def deleteCombo (id : String) (d : Data) : Data :=
  if d.combos.any (fun x => x.id = id) then
    { d with
      combos := d.combos.filter (fun x => x.id ≠ id)
      defaultComboId := if d.defaultComboId = id then "" else d.defaultComboId
      rules := d.rules.map (fun r =>
        if r.comboId = id then { r with comboId := "" } else r) }
  else d

/-! ## Import sanitization

`newId()` draws fresh ids (UUIDs); it is modelled by a supply
`fresh : Nat → String` together with a counter threaded through the
entities in the order the program would call `newId()`. -/

/-- `String(v || "")`: the string coercion of `v`, or `""` when `v` is
falsy. -/
def jsStringOrEmpty (v : JVal) : String :=
  if truthy v then stringOf v else ""

/-- The id kept or regenerated by the sanitizer:
`typeof x.id === "string" && x.id ? x.id : newId()`. -/
def sanitizeId (fresh : Nat → String) (k : Nat) (idVal : JVal) :
    String × Nat :=
  match idVal with
  | .str s => if s ≠ "" then (s, k) else (fresh k, k + 1)
  | _ => (fresh k, k + 1)

/-- Sanitize one blanket entry (`app.js` 886–890). -/
def sanitizeBlanketAt (fresh : Nat → String) (k : Nat) (b : JVal) :
    Blanket × Nat :=
  let idk := sanitizeId fresh k (objGet b "id")
  let name :=
    let n := jsTrim (jsStringOrEmpty (objGet b "name"))
    if n = "" then "Untitled blanket" else n
  ({ id := idk.1, name := name, notes := jsStringOrEmpty (objGet b "notes") },
   idk.2)

/-- Sanitize the blanket list, threading the id counter. -/
def sanitizeBlankets (fresh : Nat → String) :
    List JVal → Nat → List Blanket × Nat
  | [], k => ([], k)
  | b :: rest, k =>
    let (bl, k') := sanitizeBlanketAt fresh k b
    let (tl, k'') := sanitizeBlankets fresh rest k'
    (bl :: tl, k'')

/-- Sanitize one combo entry (`app.js` 894–900). -/
def sanitizeComboAt (fresh : Nat → String) (k : Nat) (c : JVal) :
    Combo × Nat :=
  let idk := sanitizeId fresh k (objGet c "id")
  let name :=
    let n := jsTrim (jsStringOrEmpty (objGet c "name"))
    if n = "" then "Untitled combo" else n
  let blanketIds :=
    match objGet c "blanketIds" with
    | .arr l => l.filterMap (fun v => match v with | .str s => some s | _ => none)
    | _ => []
  ({ id := idk.1, name := name, blanketIds := blanketIds }, idk.2)

/-- Sanitize the combo list, threading the id counter. -/
def sanitizeCombos (fresh : Nat → String) :
    List JVal → Nat → List Combo × Nat
  | [], k => ([], k)
  | c :: rest, k =>
    let (co, k') := sanitizeComboAt fresh k c
    let (tl, k'') := sanitizeCombos fresh rest k'
    (co :: tl, k'')

/-- Sanitize one condition entry (`app.js` 911–915). -/
def sanitizeCondAt (c : JVal) : Cond :=
  { field := jsStringOrEmpty (objGet c "field")
    op := jsStringOrEmpty (objGet c "op")
    value := objGet c "value" }

/-- Sanitize one rule entry (`app.js` 904–917). -/
def sanitizeRuleAt (fresh : Nat → String) (k : Nat) (r : JVal) :
    Rule × Nat :=
  let idk := sanitizeId fresh k (objGet r "id")
  let comboId := match objGet r "comboId" with | .str s => s | _ => ""
  let conditions :=
    match objGet r "conditions" with
    | .arr l =>
      (l.filter (fun c => truthy c && typeofIsObject c)).map sanitizeCondAt
    | _ => []
  ({ id := idk.1, name := jsStringOrEmpty (objGet r "name"), comboId := comboId,
     conditions := conditions }, idk.2)

/-- Sanitize the rule list, threading the id counter. -/
def sanitizeRules (fresh : Nat → String) :
    List JVal → Nat → List Rule × Nat
  | [], k => ([], k)
  | r :: rest, k =>
    let (ru, k') := sanitizeRuleAt fresh k r
    let (tl, k'') := sanitizeRules fresh rest k'
    (ru :: tl, k'')

/-- `Array.isArray(v) ? v : []` on a field read. -/
def arrayOrEmpty (v : JVal) : List JVal :=
  match v with
  | .arr l => l
  | _ => []

/-- Keep only truthy objects (`.filter((x) => x && typeof x === "object")`). -/
def keepObjects (l : List JVal) : List JVal :=
  l.filter (fun x => truthy x && typeofIsObject x)

/-- `sanitizeImportedData(raw)` from `app.js` 873–922; the `throw` on a
non-object becomes `Except.error` with the thrown message. -/
def sanitizeImportedData (fresh : Nat → String) (raw : JVal) :
    Except String Data :=
  if truthy raw && typeofIsObject raw then
    let (blankets, k1) :=
      sanitizeBlankets fresh (keepObjects (arrayOrEmpty (objGet raw "blankets"))) 0
    let (combos, k2) :=
      sanitizeCombos fresh (keepObjects (arrayOrEmpty (objGet raw "combos"))) k1
    let (rules, _) :=
      sanitizeRules fresh (keepObjects (arrayOrEmpty (objGet raw "rules"))) k2
    let defaultComboId :=
      match objGet raw "defaultComboId" with | .str s => s | _ => ""
    let lastForecast :=
      let lf := objGet raw "lastForecast"
      if truthy lf && typeofIsObject lf then lf else .null
    .ok
      { blankets := blankets, combos := combos, rules := rules,
        defaultComboId := defaultComboId, lastForecast := lastForecast }
  else .error "Invalid JSON object."

/-! ## Import orchestration -/

/-- The slice of the application state `importData` touches: the
in-memory dataset and the persisted blob (modelled by the dataset it
encodes; `none` when nothing was stored). -/
structure AppState where
  data : Data
  stored : Option Data
deriving Repr, DecidableEq

/-- `importData(raw)` from `app.js` 924–933: sanitize, assign, persist.
When `sanitizeImportedData` throws, the error propagates before any
assignment, so no new state is produced.  Form resets and re-rendering
are out of scope. -/
def importData (fresh : Nat → String) (raw : JVal) :
    Except String AppState :=
  match sanitizeImportedData fresh raw with
  | .ok d => .ok { data := d, stored := some d }
  | .error e => .error e

/-- `importData` as its callers run it (`app.js` 1140–1167): the thrown
error is caught and only status text changes, so the state slice is kept
as it was. -/
def tryImport (fresh : Nat → String) (raw : JVal) (st : AppState) :
    AppState :=
  match importData fresh raw with
  | .ok st' => st'
  | .error _ => st

/-! ## Concrete example data (used by witnesses and counterexamples) -/

/-- A metrics snapshot as computed on a mild dry night. -/
def exMetrics : Metrics :=
  { minTempF := .num (.fin 30), minFeelsF := .num (.fin 28),
    maxPrecipProb := .num (.fin 10), maxWindMph := .num (.fin 5),
    wetRisk := .bool false }

/-- A rule with no conditions (matches unconditionally) whose `comboId`
names no combo of `exDataDangling`. -/
def exRuleDangling : Rule :=
  { id := "r1", name := "Catch all", comboId := "ghost", conditions := [] }

/-- The default combo of `exDataDangling`. -/
def exComboDefault : Combo :=
  { id := "cd", name := "Default", blanketIds := [] }

/-- A dataset whose only rule matches but points at a missing combo,
while a default combo is configured. -/
def exDataDangling : Data :=
  { blankets := [], combos := [exComboDefault], rules := [exRuleDangling],
    defaultComboId := "cd", lastForecast := .null }

/-- A rule keyed on `minFeelsF ≤ 32`, pointing at `exCombo1`. -/
def exRule1 : Rule :=
  { id := "rA", name := "Cold", comboId := "c1",
    conditions := [{ field := "minFeelsF", op := "<=", value := .num (.fin 32) }] }

/-- The combo `exRule1` points at. -/
def exCombo1 : Combo :=
  { id := "c1", name := "Heavy set", blanketIds := ["b1"] }

/-- A dataset where `exRule1` is the first (and only) matching rule. -/
def exData1 : Data :=
  { blankets := [{ id := "b1", name := "Heavy", notes := "" }],
    combos := [exCombo1], rules := [exRule1], defaultComboId := "",
    lastForecast := .null }

/-- The import payload of the spec's concrete import example. -/
def exImportRaw : JVal :=
  .obj [("blankets", .arr [.obj [("id", .str "b1"), ("name", .str "Heavy")]]),
        ("combos", .arr []), ("rules", .arr [])]

/-- The dataset that import example must produce. -/
def exImportExpected : Data :=
  { blankets := [{ id := "b1", name := "Heavy", notes := "" }],
    combos := [], rules := [], defaultComboId := "", lastForecast := .null }

/-- A fixed fresh-id supply for witnesses. -/
def exFresh (n : Nat) : String := "fresh" ++ toString n

/-- An app state with a populated dataset and stored blob. -/
def exAppState : AppState :=
  { data := exData1, stored := some exData1 }

/-! ## Theorems -/

/-- The rule loop returns the first match of the list, and otherwise
falls through to the default-combo branch. -/
theorem pickRecommendationGo_eq_find (combos : List Combo) (dflt : String)
    (m : Metrics) (rules : List Rule) :
    pickRecommendationGo combos dflt m rules =
      match rules.find? (fun r => ruleMatches r.toJVal m) with
      | some r => .ofRule r (comboLookup combos r.comboId)
      | none =>
        match (if dflt ≠ "" then comboLookup combos dflt else none) with
        | some c => .ofDefault c
        | none => .noneRec := by
  induction rules with
  | nil => rfl
  | cons r rest ih =>
    cases h : ruleMatches r.toJVal m with
    | false => simp [pickRecommendationGo, h, List.find?_cons, ih]
    | true => simp [pickRecommendationGo, h, List.find?_cons]

/-- A structurally built rule record with an empty condition list
matches every metrics snapshot. -/
theorem ruleMatches_nil_conditions (r : Rule) (m : Metrics)
    (h : r.conditions = []) : ruleMatches r.toJVal m = true := by
  simp [ruleMatches, Rule.toJVal, ruleCondList, objGet, truthy,
    typeofIsObject, h]

/-- C1: `pickRecommendation` returns the combo of the first rule in list
order all of whose conditions hold (never a later match); a rule with an
empty condition list matches unconditionally; with no matching rule it
falls back to the combo named by a non-empty `defaultComboId`, and
reports no recommendation when that too is absent. -/
theorem pickRecommendation_first_match (d : Data) (m : Metrics) :
    (∀ r : Rule, r.conditions = [] → ruleMatches r.toJVal m = true)
    ∧ (∀ r : Rule, d.rules.find? (fun r => ruleMatches r.toJVal m) = some r →
        pickRecommendation d m = .ofRule r (comboLookup d.combos r.comboId))
    ∧ (d.rules.find? (fun r => ruleMatches r.toJVal m) = none →
        ∀ c : Combo, d.defaultComboId ≠ "" →
          comboLookup d.combos d.defaultComboId = some c →
          pickRecommendation d m = .ofDefault c)
    ∧ (d.rules.find? (fun r => ruleMatches r.toJVal m) = none →
        (d.defaultComboId = "" ∨ comboLookup d.combos d.defaultComboId = none) →
        pickRecommendation d m = .noneRec) := by
  refine ⟨fun r h => ruleMatches_nil_conditions r m h, ?_, ?_, ?_⟩
  · intro r hfind
    rw [pickRecommendation, pickRecommendationGo_eq_find, hfind]
  · intro hfind c hne hlook
    rw [pickRecommendation, pickRecommendationGo_eq_find, hfind]
    simp [hne, hlook]
  · intro hfind hnone
    rw [pickRecommendation, pickRecommendationGo_eq_find, hfind]
    rcases hnone with h | h <;> simp [h]

/-- Witness for C1 at concrete data: the empty-condition rule matches,
and the first matching rule's combo is returned. -/
theorem pickRecommendation_first_match_witness :
    ruleMatches (Rule.toJVal exRuleDangling) exMetrics = true
    ∧ pickRecommendation exData1 exMetrics = .ofRule exRule1 (some exCombo1) :=
  ⟨(pickRecommendation_first_match exData1 exMetrics).1 exRuleDangling rfl,
   (pickRecommendation_first_match exData1 exMetrics).2.1 exRule1 (by decide)⟩

/-- Counterexample to C2 as stated: in `exDataDangling` the only rule
matches and its combo is missing, yet the engine selects that rule (with
no combo) instead of treating it as no match and using the default
combo. -/
theorem pickRecommendation_dangling_counterexample :
    ruleMatches (Rule.toJVal exRuleDangling) exMetrics = true
    ∧ comboLookup exDataDangling.combos exRuleDangling.comboId = none
    ∧ pickRecommendation exDataDangling exMetrics = .ofRule exRuleDangling none
    ∧ pickRecommendation exDataDangling exMetrics ≠ .ofDefault exComboDefault := by
  refine ⟨by decide, by decide, by decide, by decide⟩

/-- C2 (amended): a matching rule whose `comboId` names no combo is still
selected — the engine returns that rule with an absent combo, without
erroring and without falling through to later rules or the default
combo; the missing reference surfaces downstream as a placeholder. -/
theorem pickRecommendation_dangling (d : Data) (m : Metrics) (r : Rule)
    (hfind : d.rules.find? (fun r => ruleMatches r.toJVal m) = some r)
    (hmiss : comboLookup d.combos r.comboId = none) :
    pickRecommendation d m = .ofRule r none := by
  rw [pickRecommendation, pickRecommendationGo_eq_find, hfind]
  simp [hmiss]

/-- Witness for the amended C2 at the concrete dangling dataset. -/
theorem pickRecommendation_dangling_witness :
    pickRecommendation exDataDangling exMetrics = .ofRule exRuleDangling none :=
  pickRecommendation_dangling exDataDangling exMetrics exRuleDangling
    (by decide) (by decide)

/-- A value has no finite rational exactly when `isFiniteNumber` rejects
it. -/
theorem finiteOf_eq_none_iff (v : JVal) :
    finiteOf v = none ↔ isFiniteNumber v = false := by
  rcases v with _ | _ | b | n | s | l | fs
  case num => rcases n <;> simp [finiteOf, isFiniteNumber]
  all_goals simp [finiteOf, isFiniteNumber]

/-- A string key other than the five metric names reads `undefined` off
a metrics snapshot. -/
theorem metricsGet_not_field (m : Metrics) (s : String)
    (h : s ∉ ["minTempF", "minFeelsF", "maxPrecipProb", "maxWindMph", "wetRisk"]) :
    metricsGet m s = .undefined := by
  simp only [List.mem_cons, List.not_mem_nil, or_false, not_or] at h
  obtain ⟨h1, h2, h3, h4, h5⟩ := h
  simp [metricsGet, h1, h2, h3, h4, h5]

/-- The numeric branch of a condition fails whenever either operand has
no finite value. -/
theorem condHoldsCore_nonfinite (m : Metrics) (f op v : JVal)
    (hf : f ≠ .str "wetRisk")
    (h : finiteOf (metricsGet m (stringOf f)) = none
      ∨ (jsToNumber v).finiteOf = none) :
    condHoldsCore m f op v = false := by
  unfold condHoldsCore
  split
  · simp_all
  · rcases h with h | h
    · simp [h]
    · cases hl : finiteOf (metricsGet m (stringOf f)) <;> simp [h, hl]

/-- The numeric branch of a condition fails under an unrecognized
operator. -/
theorem condHoldsCore_badOp (m : Metrics) (f op v : JVal)
    (hf : f ≠ .str "wetRisk")
    (hop : op ∉ [JVal.str "<=", .str "<", .str ">=", .str ">"]) :
    condHoldsCore m f op v = false := by
  unfold condHoldsCore
  split
  · simp_all
  · cases hl : finiteOf (metricsGet m (stringOf f)) with
    | none => simp [hl]
    | some l =>
      cases hr : (jsToNumber v).finiteOf with
      | none => simp [hl, hr]
      | some r =>
        simp only [hl, hr]
        split <;> simp_all

/-- The boolean branch of a condition fails under any operator other
than `"is"`. -/
theorem condHoldsCore_wetBadOp (m : Metrics) (op v : JVal)
    (hop : op ≠ .str "is") :
    condHoldsCore m (.str "wetRisk") op v = false := by
  unfold condHoldsCore
  split <;> simp_all

/-- Operator `"is"` fails on every field other than `wetRisk`. -/
theorem condHoldsCore_isOnlyWet (m : Metrics) (f v : JVal)
    (hf : f ≠ .str "wetRisk") :
    condHoldsCore m f (.str "is") v = false := by
  apply condHoldsCore_badOp m f _ v hf
  decide

/-- A condition with a false core — or one that is not a truthy object —
fails. -/
theorem condHolds_false_of_core (cond : JVal) (m : Metrics)
    (h : condHoldsCore m (objGet cond "field") (objGet cond "op")
      (objGet cond "value") = false) :
    condHolds cond m = false := by
  unfold condHolds
  split <;> simp [h]

/-- C3: `ruleMatches` is total by construction and a condition can only
fail, never fault: a string field outside the five metric fields fails
its condition; an operator unrecognized for the field fails it; `"is"`
matches only the `wetRisk` field; a numeric comparison is never
satisfied when either operand is missing or non-finite; and a rule
containing a failing condition fails to match. -/
theorem ruleMatches_safety (m : Metrics) (cond : JVal) :
    (∀ s : String, objGet cond "field" = .str s →
        s ∉ ["minTempF", "minFeelsF", "maxPrecipProb", "maxWindMph", "wetRisk"] →
        condHolds cond m = false)
    ∧ (objGet cond "field" = .str "wetRisk" → objGet cond "op" ≠ .str "is" →
        condHolds cond m = false)
    ∧ (∀ s : String, objGet cond "field" = .str s → s ≠ "wetRisk" →
        objGet cond "op" ∉ [JVal.str "<=", .str "<", .str ">=", .str ">"] →
        condHolds cond m = false)
    ∧ (objGet cond "op" = .str "is" → objGet cond "field" ≠ .str "wetRisk" →
        condHolds cond m = false)
    ∧ (objGet cond "field" ≠ .str "wetRisk" →
        (isFiniteNumber (metricsGet m (stringOf (objGet cond "field"))) = false
          ∨ (jsToNumber (objGet cond "value")).finiteOf = none) →
        condHolds cond m = false)
    ∧ (∀ rule : JVal, cond ∈ ruleCondList rule → condHolds cond m = false →
        ruleMatches rule m = false) := by
  refine ⟨?_, ?_, ?_, ?_, ?_, ?_⟩
  · intro s hf hs
    apply condHolds_false_of_core
    rw [hf]
    apply condHoldsCore_nonfinite
    · simp only [List.mem_cons, List.not_mem_nil, or_false, not_or] at hs
      simp [hs]
    · left
      rw [show stringOf (.str s) = s from rfl, metricsGet_not_field m s hs]
      rfl
  · intro hf hop
    apply condHolds_false_of_core
    rw [hf]
    exact condHoldsCore_wetBadOp m _ _ hop
  · intro s hf hs hop
    apply condHolds_false_of_core
    rw [hf]
    apply condHoldsCore_badOp
    · simp [hs]
    · exact hop
  · intro hop hf
    apply condHolds_false_of_core
    rw [hop]
    exact condHoldsCore_isOnlyWet m _ _ hf
  · intro hf h
    apply condHolds_false_of_core
    apply condHoldsCore_nonfinite m _ _ _ hf
    rcases h with h | h
    · left
      exact (finiteOf_eq_none_iff _).mpr h
    · right
      exact h
  · intro rule hmem hfail
    unfold ruleMatches
    split
    · simp only [List.all_eq_false]
      exact ⟨cond, hmem, by simp [hfail]⟩
    · rfl

/-- Witness for C3: a condition keyed on a nonexistent field fails, and
a rule carrying it fails to match. -/
theorem ruleMatches_safety_witness :
    condHolds (Cond.toJVal { field := "humidity", op := "<=", value := .num (.fin 3) })
      exMetrics = false
    ∧ ruleMatches
        (.obj [("conditions",
          .arr [Cond.toJVal { field := "humidity", op := "<=", value := .num (.fin 3) }])])
        exMetrics = false :=
  ⟨(ruleMatches_safety exMetrics _).1 "humidity" (by decide) (by decide),
   (ruleMatches_safety exMetrics
      (Cond.toJVal { field := "humidity", op := "<=", value := .num (.fin 3) })).2.2.2.2.2
     _ (by decide)
     ((ruleMatches_safety exMetrics _).1 "humidity" (by decide) (by decide))⟩

/-- Folding a step over the readings at the selected indices equals
folding it over the finite readings alone: missing and non-finite
entries leave the accumulator untouched. -/
theorem foldl_finiteReadings (arr : List JVal)
    (step : Option ℚ → ℚ → Option ℚ) :
    ∀ (indices : List Nat) (acc : Option ℚ),
      indices.foldl
        (fun best i =>
          match finiteOf (jvIdx arr i) with
          | some v => step best v
          | none => best) acc
      = (finiteReadings indices arr).foldl step acc
  | [], _ => rfl
  | i :: rest, acc => by
    have ih := foldl_finiteReadings arr step rest
    cases h : finiteOf (jvIdx arr i) with
    | none =>
      simp only [finiteReadings, List.foldl_cons, List.filterMap_cons, h]
      exact ih acc
    | some v =>
      simp only [finiteReadings, List.foldl_cons, List.filterMap_cons, h]
      exact ih (step acc v)

/-- `pickMin` is the `minStep`-fold of the finite readings. -/
theorem pickMin_eq_foldl (indices : List Nat) (arr : List JVal) :
    pickMin indices arr = (finiteReadings indices arr).foldl minStep none :=
  foldl_finiteReadings arr minStep indices none

/-- `pickMax` is the `maxStep`-fold of the finite readings. -/
theorem pickMax_eq_foldl (indices : List Nat) (arr : List JVal) :
    pickMax indices arr = (finiteReadings indices arr).foldl maxStep none :=
  foldl_finiteReadings arr maxStep indices none

/-- A `minStep`-fold from a present accumulator stays present and
computes the least of the accumulator and the list. -/
theorem foldl_minStep_some :
    ∀ (l : List ℚ) (b : ℚ), ∃ r, l.foldl minStep (some b) = some r
      ∧ r ≤ b ∧ (∀ x ∈ l, r ≤ x) ∧ (r = b ∨ r ∈ l)
  | [], b => ⟨b, rfl, le_refl b, by simp, Or.inl rfl⟩
  | v :: rest, b => by
    obtain ⟨r, hfold, hrb, hall, hmem⟩ :=
      foldl_minStep_some rest (if v < b then v else b)
    have hstep : minStep (some b) v = some (if v < b then v else b) := by
      by_cases h : v < b <;> simp [minStep, h]
    have hvb : (if v < b then v else b) ≤ b := by
      by_cases h : v < b
      · rw [if_pos h]; exact le_of_lt h
      · rw [if_neg h]
    have hvv : (if v < b then v else b) ≤ v := by
      by_cases h : v < b
      · rw [if_pos h]
      · rw [if_neg h]; exact le_of_not_lt h
    refine ⟨r, ?_, hrb.trans hvb, ?_, ?_⟩
    · rw [List.foldl_cons, hstep]; exact hfold
    · intro x hx
      rcases List.mem_cons.mp hx with rfl | hx
      · exact hrb.trans hvv
      · exact hall x hx
    · rcases hmem with heq | hr
      · subst heq
        by_cases h : v < b
        · rw [if_pos h]; exact Or.inr (List.mem_cons_self _ _)
        · rw [if_neg h]; exact Or.inl rfl
      · exact Or.inr (List.mem_cons_of_mem _ hr)

/-- A `maxStep`-fold from a present accumulator stays present and
computes the greatest of the accumulator and the list. -/
theorem foldl_maxStep_some :
    ∀ (l : List ℚ) (b : ℚ), ∃ r, l.foldl maxStep (some b) = some r
      ∧ b ≤ r ∧ (∀ x ∈ l, x ≤ r) ∧ (r = b ∨ r ∈ l)
  | [], b => ⟨b, rfl, le_refl b, by simp, Or.inl rfl⟩
  | v :: rest, b => by
    obtain ⟨r, hfold, hrb, hall, hmem⟩ :=
      foldl_maxStep_some rest (if b < v then v else b)
    have hstep : maxStep (some b) v = some (if b < v then v else b) := by
      by_cases h : b < v <;> simp [maxStep, h]
    have hvb : b ≤ (if b < v then v else b) := by
      by_cases h : b < v
      · rw [if_pos h]; exact le_of_lt h
      · rw [if_neg h]
    have hvv : v ≤ (if b < v then v else b) := by
      by_cases h : b < v
      · rw [if_pos h]
      · rw [if_neg h]; exact le_of_not_lt h
    refine ⟨r, ?_, hvb.trans hrb, ?_, ?_⟩
    · rw [List.foldl_cons, hstep]; exact hfold
    · intro x hx
      rcases List.mem_cons.mp hx with rfl | hx
      · exact hvv.trans hrb
      · exact hall x hx
    · rcases hmem with heq | hr
      · subst heq
        by_cases h : b < v
        · rw [if_pos h]; exact Or.inr (List.mem_cons_self _ _)
        · rw [if_neg h]; exact Or.inl rfl
      · exact Or.inr (List.mem_cons_of_mem _ hr)

/-- The `minStep`-fold from an empty accumulator: empty exactly on the
empty list, else the least element. -/
theorem minFold_spec (l : List ℚ) :
    (l.foldl minStep none = none ↔ l = [])
    ∧ ∀ r, l.foldl minStep none = some r → r ∈ l ∧ ∀ x ∈ l, r ≤ x := by
  cases l with
  | nil => exact ⟨by simp, by simp⟩
  | cons v rest =>
    obtain ⟨r, hfold, hrb, hall, hmem⟩ := foldl_minStep_some rest v
    have hf : (v :: rest).foldl minStep none = some r := by
      rw [List.foldl_cons]; exact hfold
    refine ⟨by simp [hf], ?_⟩
    intro r' hr'
    rw [hf] at hr'
    obtain rfl : r = r' := by injection hr'
    refine ⟨?_, ?_⟩
    · rcases hmem with rfl | hr
      · exact List.mem_cons_self _ _
      · exact List.mem_cons_of_mem _ hr
    · intro x hx
      rcases List.mem_cons.mp hx with rfl | hx
      · exact hrb
      · exact hall x hx

/-- The `maxStep`-fold from an empty accumulator: empty exactly on the
empty list, else the greatest element. -/
theorem maxFold_spec (l : List ℚ) :
    (l.foldl maxStep none = none ↔ l = [])
    ∧ ∀ r, l.foldl maxStep none = some r → r ∈ l ∧ ∀ x ∈ l, x ≤ r := by
  cases l with
  | nil => exact ⟨by simp, by simp⟩
  | cons v rest =>
    obtain ⟨r, hfold, hrb, hall, hmem⟩ := foldl_maxStep_some rest v
    have hf : (v :: rest).foldl maxStep none = some r := by
      rw [List.foldl_cons]; exact hfold
    refine ⟨by simp [hf], ?_⟩
    intro r' hr'
    rw [hf] at hr'
    obtain rfl : r = r' := by injection hr'
    refine ⟨?_, ?_⟩
    · rcases hmem with rfl | hr
      · exact List.mem_cons_self _ _
      · exact List.mem_cons_of_mem _ hr
    · intro x hx
      rcases List.mem_cons.mp hx with rfl | hx
      · exact hrb
      · exact hall x hx

/-- C4: over the selected overnight indices, missing and non-finite
readings are skipped: each min (max) is absent only when every reading
of the series in the window is missing or non-finite, and otherwise is
the least (greatest) finite reading; and with a non-empty window the
whole computation still succeeds. -/
theorem metric_reduction_skips_nonfinite (times : List (Option Nat))
    (ws we : Nat) (arr temps feels precip wind : List JVal) :
    (pickMin (selectIndices times ws we) arr = none ↔
      finiteReadings (selectIndices times ws we) arr = [])
    ∧ (∀ q, pickMin (selectIndices times ws we) arr = some q →
        q ∈ finiteReadings (selectIndices times ws we) arr ∧
        ∀ x ∈ finiteReadings (selectIndices times ws we) arr, q ≤ x)
    ∧ (pickMax (selectIndices times ws we) arr = none ↔
      finiteReadings (selectIndices times ws we) arr = [])
    ∧ (∀ q, pickMax (selectIndices times ws we) arr = some q →
        q ∈ finiteReadings (selectIndices times ws we) arr ∧
        ∀ x ∈ finiteReadings (selectIndices times ws we) arr, x ≤ q)
    ∧ (selectIndices times ws we ≠ [] →
        ∃ mt, computeTonightMetricsFromHourly
          ⟨some times, some temps, some feels, some precip, some wind⟩ ws we
          = .ok mt) := by
  rw [pickMin_eq_foldl, pickMax_eq_foldl]
  refine ⟨(minFold_spec _).1, (minFold_spec _).2, (maxFold_spec _).1,
    (maxFold_spec _).2, ?_⟩
  intro hne
  unfold computeTonightMetricsFromHourly
  dsimp only
  rw [if_neg hne]
  exact ⟨_, rfl⟩

/-- Witness for C4 at a concrete series: the minimum skips the `null`
and `NaN` readings, and the computation succeeds. -/
theorem metric_reduction_skips_nonfinite_witness :
    pickMin (selectIndices [some 100, some 150, some 200] 100 300)
        [.null, .num .nan, .num (.fin 25)] = some 25
    ∧ (25 : ℚ) ∈ finiteReadings (selectIndices [some 100, some 150, some 200] 100 300)
        [.null, .num .nan, .num (.fin 25)] := by
  have h := (metric_reduction_skips_nonfinite [some 100, some 150, some 200]
    100 300 [.null, .num .nan, .num (.fin 25)] [] [] [] []).2.1 25 (by decide)
  exact ⟨by decide, h.1⟩

/-- C5: when no parseable timestamp of the hourly series falls inside
the window, `computeTonightMetricsFromHourly` throws the window-empty
error and produces no metrics. -/
theorem window_empty_hard_error (times : List (Option Nat)) (ws we : Nat)
    (temps feels precip wind : List JVal)
    (h : ∀ (i ms : Nat), times.getD i none = some ms → ¬(ws ≤ ms ∧ ms < we)) :
    computeTonightMetricsFromHourly
      ⟨some times, some temps, some feels, some precip, some wind⟩ ws we
      = .error "No hourly data found for the tonight window." := by
  have hsel : selectIndices times ws we = [] := by
    unfold selectIndices
    apply List.filter_eq_nil_iff.mpr
    intro i _
    cases hms : times.getD i none with
    | none => simp
    | some ms =>
      have := h i ms hms
      simp only [decide_eq_true_eq, Bool.and_eq_true]
      omega
  unfold computeTonightMetricsFromHourly
  dsimp only
  rw [if_pos hsel]

/-- Witness for C5: a series whose only parseable timestamp lies outside
the window yields the hard error. -/
theorem window_empty_hard_error_witness :
    computeTonightMetricsFromHourly
      ⟨some [some 50, none], some [.num (.fin 30), .num (.fin 20)],
       some [.num (.fin 28), .num (.fin 18)], some [.num (.fin 10), .num (.fin 20)],
       some [.num (.fin 5), .num (.fin 6)]⟩ 100 300
      = .error "No hourly data found for the tonight window." :=
  window_empty_hard_error [some 50, none] 100 300
    [.num (.fin 30), .num (.fin 20)] [.num (.fin 28), .num (.fin 18)]
    [.num (.fin 10), .num (.fin 20)] [.num (.fin 5), .num (.fin 6)]
    (by
      intro i ms hms
      match i with
      | 0 =>
        obtain rfl : (50 : Nat) = ms := by injection hms
        omega
      | 1 => exact absurd hms (by simp)
      | n + 2 => exact absurd hms (by simp [List.getD]))

/-- C6: on every successfully computed metrics snapshot, `wetRisk` is
true exactly when the computed maximum precipitation probability exists
and is at least 50. -/
theorem wetRisk_iff_precip_ge_50 (hourly : Hourly) (ws we : Nat)
    (mt : Metrics)
    (h : computeTonightMetricsFromHourly hourly ws we = .ok mt) :
    mt.wetRisk = .bool true
      ↔ ∃ p : ℚ, mt.maxPrecipProb = .num (.fin p) ∧ 50 ≤ p := by
  obtain ⟨times, temps, feels, precip, wind⟩ := hourly
  cases times with
  | none => exact absurd h (by simp [computeTonightMetricsFromHourly])
  | some times =>
  cases temps with
  | none => exact absurd h (by simp [computeTonightMetricsFromHourly])
  | some temps =>
  cases feels with
  | none => exact absurd h (by simp [computeTonightMetricsFromHourly])
  | some feels =>
  cases precip with
  | none => exact absurd h (by simp [computeTonightMetricsFromHourly])
  | some precip =>
  cases wind with
  | none => exact absurd h (by simp [computeTonightMetricsFromHourly])
  | some wind =>
  unfold computeTonightMetricsFromHourly at h
  dsimp only at h
  by_cases hsel : selectIndices times ws we = []
  · rw [if_pos hsel] at h
    exact absurd h (by simp)
  · rw [if_neg hsel] at h
    injection h with h
    subst h
    dsimp only
    cases hmax : pickMax (selectIndices times ws we) precip with
    | none => simp [hmax, optNum]
    | some p =>
      simp only [hmax, optNum]
      constructor
      · intro hb
        have hd : decide ((50 : ℚ) ≤ p) = true := by injection hb
        exact ⟨p, rfl, of_decide_eq_true hd⟩
      · rintro ⟨p', hp', hge⟩
        obtain rfl : p = p' := by
          injection hp' with h1
          injection h1
        simp [hge]

/-- Witness for C6 at a concrete response whose precipitation maximum is
exactly 50: `wetRisk` comes out true. -/
theorem wetRisk_iff_precip_ge_50_witness :
    computeTonightMetricsFromHourly
        ⟨some [some 100], some [.num (.fin 30)], some [.num (.fin 28)],
         some [.num (.fin 50)], some [.num (.fin 5)]⟩ 100 300
      = .ok { minTempF := .num (.fin 30), minFeelsF := .num (.fin 28),
              maxPrecipProb := .num (.fin 50), maxWindMph := .num (.fin 5),
              wetRisk := .bool true }
    ∧ ({ minTempF := .num (.fin 30), minFeelsF := .num (.fin 28),
         maxPrecipProb := .num (.fin 50), maxWindMph := .num (.fin 5),
         wetRisk := .bool true } : Metrics).wetRisk = .bool true :=
  ⟨by rfl,
   (wetRisk_iff_precip_ge_50
      ⟨some [some 100], some [.num (.fin 30)], some [.num (.fin 28)],
       some [.num (.fin 50)], some [.num (.fin 5)]⟩ 100 300 _
      (by rfl)).mpr ⟨50, rfl, by norm_num⟩⟩

/-- C7: `getTonightWindow` spans 19:00 of the current local day to 09:00
of the next, and `selectIndices` selects exactly the indices whose
timestamp parses and falls in that half-open window. -/
theorem tonight_window_selection (now : Nat) (times : List (Option Nat)) :
    (getTonightWindow now).start = now / msPerDay * msPerDay + 19 * msPerHour
    ∧ (getTonightWindow now).stop = (now / msPerDay + 1) * msPerDay + 9 * msPerHour
    ∧ ∀ i : Nat,
        i ∈ selectIndices times (getTonightWindow now).start (getTonightWindow now).stop
        ↔ ∃ ms : Nat, times.getD i none = some ms
            ∧ (getTonightWindow now).start ≤ ms ∧ ms < (getTonightWindow now).stop := by
  refine ⟨rfl, ?_, ?_⟩
  · show setHoursMs (setHoursMs now 19 + msPerDay) 9 = _
    unfold setHoursMs msPerDay msPerHour
    omega
  · intro i
    unfold selectIndices
    rw [List.mem_filter, List.mem_range]
    cases hms : times.getD i none with
    | none => simp [hms]
    | some ms =>
      have hlen : i < times.length := by
        by_contra hlt
        rw [List.getD_eq_default _ _ (le_of_not_lt hlt)] at hms
        exact Option.noConfusion hms
      simp only [hms, hlen, true_and, Bool.and_eq_true, decide_eq_true_eq]
      constructor
      · rintro ⟨h1, h2⟩
        exact ⟨ms, rfl, h1, h2⟩
      · rintro ⟨ms', hms', h1, h2⟩
        obtain rfl : ms = ms' := by injection hms'
        exact ⟨h1, h2⟩

/-- Witness for C7: at a concrete clock reading the window runs from
19:00 today to 09:00 tomorrow and selects exactly the in-window index. -/
theorem tonight_window_selection_witness :
    (getTonightWindow (3 * msPerDay + 5 * msPerHour)).start
        = 3 * msPerDay + 19 * msPerHour
    ∧ (getTonightWindow (3 * msPerDay + 5 * msPerHour)).stop
        = 4 * msPerDay + 9 * msPerHour
    ∧ (1 ∈ selectIndices [some (3 * msPerDay), some (3 * msPerDay + 20 * msPerHour)]
        (getTonightWindow (3 * msPerDay + 5 * msPerHour)).start
        (getTonightWindow (3 * msPerDay + 5 * msPerHour)).stop) := by
  obtain ⟨h1, h2, h3⟩ := tonight_window_selection (3 * msPerDay + 5 * msPerHour)
    [some (3 * msPerDay), some (3 * msPerDay + 20 * msPerHour)]
  refine ⟨by rw [h1]; norm_num [msPerDay, msPerHour],
    by rw [h2]; norm_num [msPerDay, msPerHour], ?_⟩
  exact (h3 1).mpr ⟨3 * msPerDay + 20 * msPerHour, rfl,
    by rw [h1]; norm_num [msPerDay, msPerHour],
    by rw [h2]; norm_num [msPerDay, msPerHour]⟩

/-- C8: deleting an existing blanket scrubs its id from every combo's
blanket list while keeping every combo (same ids and names, in place)
and leaving rules and the default combo untouched; deleting an existing
combo blanks the `comboId` of exactly the rules that referenced it,
clears `defaultComboId` when it named the deleted combo, and leaves
blankets and all other rules' fields unchanged. -/
theorem delete_frame_effects (d : Data) (bid cid : String)
    (hb : d.blankets.any (fun x => x.id = bid) = true)
    (hc : d.combos.any (fun x => x.id = cid) = true) :
    List.Forall₂
      (fun (c c' : Combo) => c'.id = c.id ∧ c'.name = c.name ∧
        ∀ x, x ∈ c'.blanketIds ↔ x ∈ c.blanketIds ∧ x ≠ bid)
      d.combos (deleteBlanket bid d).combos
    ∧ (∀ c ∈ (deleteBlanket bid d).combos, bid ∉ c.blanketIds)
    ∧ (deleteBlanket bid d).rules = d.rules
    ∧ (deleteBlanket bid d).defaultComboId = d.defaultComboId
    ∧ List.Forall₂
        (fun (r r' : Rule) =>
          (r.comboId = cid → r' = { r with comboId := "" })
          ∧ (r.comboId ≠ cid → r' = r))
        d.rules (deleteCombo cid d).rules
    ∧ (deleteCombo cid d).blankets = d.blankets
    ∧ (deleteCombo cid d).defaultComboId
        = (if d.defaultComboId = cid then "" else d.defaultComboId)
    ∧ (∀ c ∈ (deleteCombo cid d).combos, c.id ≠ cid) := by
  unfold deleteBlanket deleteCombo
  rw [if_pos hb, if_pos hc]
  refine ⟨?_, ?_, rfl, rfl, ?_, rfl, rfl, ?_⟩
  · apply List.forall₂_map_right_iff.mpr
    apply List.forall₂_same.mpr
    intro c _
    refine ⟨rfl, rfl, ?_⟩
    intro x
    simp [List.mem_filter]
  · intro c hcm
    obtain ⟨c₀, _, rfl⟩ := List.mem_map.mp hcm
    simp [List.mem_filter]
  · apply List.forall₂_map_right_iff.mpr
    apply List.forall₂_same.mpr
    intro r _
    by_cases h : r.comboId = cid
    · exact ⟨fun _ => by rw [if_pos h], fun hne => absurd h hne⟩
    · exact ⟨fun heq => absurd heq h, fun _ => by rw [if_neg h]⟩
  · intro c hcm
    have := (List.mem_filter.mp hcm).2
    simpa using this

/-- Witness for C8 at a concrete dataset holding one blanket, two
combos, one rule and a default combo. -/
theorem delete_frame_effects_witness :
    deleteBlanket "b1"
      { blankets := [{ id := "b1", name := "Heavy", notes := "" }],
        combos := [{ id := "c1", name := "Set", blanketIds := ["b1", "b2"] }],
        rules := [{ id := "r1", name := "", comboId := "c1", conditions := [] }],
        defaultComboId := "c1", lastForecast := .null }
      = { blankets := [],
          combos := [{ id := "c1", name := "Set", blanketIds := ["b2"] }],
          rules := [{ id := "r1", name := "", comboId := "c1", conditions := [] }],
          defaultComboId := "c1", lastForecast := .null }
    ∧ deleteCombo "c1"
      { blankets := [{ id := "b1", name := "Heavy", notes := "" }],
        combos := [{ id := "c1", name := "Set", blanketIds := ["b1", "b2"] }],
        rules := [{ id := "r1", name := "", comboId := "c1", conditions := [] }],
        defaultComboId := "c1", lastForecast := .null }
      = { blankets := [{ id := "b1", name := "Heavy", notes := "" }],
          combos := [],
          rules := [{ id := "r1", name := "", comboId := "", conditions := [] }],
          defaultComboId := "", lastForecast := .null }
    ∧ ∀ c ∈ (deleteBlanket "b1"
        { blankets := [{ id := "b1", name := "Heavy", notes := "" }],
          combos := [{ id := "c1", name := "Set", blanketIds := ["b1", "b2"] }],
          rules := [{ id := "r1", name := "", comboId := "c1", conditions := [] }],
          defaultComboId := "c1", lastForecast := .null } : Data).combos,
        "b1" ∉ c.blanketIds := by
  refine ⟨by decide, by decide, ?_⟩
  exact (delete_frame_effects
    { blankets := [{ id := "b1", name := "Heavy", notes := "" }],
      combos := [{ id := "c1", name := "Set", blanketIds := ["b1", "b2"] }],
      rules := [{ id := "r1", name := "", comboId := "c1", conditions := [] }],
      defaultComboId := "c1", lastForecast := .null }
    "b1" "c1" (by decide) (by decide)).2.1

/-- C9: importing `{blankets:[{id:"b1",name:"Heavy"}], combos:[],
rules:[]}` yields exactly one blanket with defaulted notes, no combos,
no rules and an empty default combo; and blanket sanitization keeps a
non-empty string id, regenerates any non-string id from the fresh
supply, and defaults a missing name and missing notes. -/
theorem sanitize_import_example (fresh : Nat → String) :
    sanitizeImportedData fresh exImportRaw = .ok exImportExpected
    ∧ (∀ (k : Nat) (b : JVal) (s : String), objGet b "id" = .str s → s ≠ "" →
        (sanitizeBlanketAt fresh k b).1.id = s)
    ∧ (∀ (k : Nat) (b : JVal), (∀ s : String, objGet b "id" ≠ .str s) →
        (sanitizeBlanketAt fresh k b).1.id = fresh k)
    ∧ (∀ (k : Nat) (b : JVal), objGet b "name" = .undefined →
        (sanitizeBlanketAt fresh k b).1.name = "Untitled blanket")
    ∧ (∀ (k : Nat) (b : JVal), objGet b "notes" = .undefined →
        (sanitizeBlanketAt fresh k b).1.notes = "") := by
  refine ⟨rfl, ?_, ?_, ?_, ?_⟩
  · intro k b s hid hs
    unfold sanitizeBlanketAt sanitizeId
    rw [hid]
    simp [hs]
  · intro k b h
    cases hid : objGet b "id" with
    | str s => exact absurd hid (h s)
    | null => simp [sanitizeBlanketAt, sanitizeId, hid]
    | undefined => simp [sanitizeBlanketAt, sanitizeId, hid]
    | bool b' => simp [sanitizeBlanketAt, sanitizeId, hid]
    | num n => simp [sanitizeBlanketAt, sanitizeId, hid]
    | arr l => simp [sanitizeBlanketAt, sanitizeId, hid]
    | obj fs => simp [sanitizeBlanketAt, sanitizeId, hid]
  · intro k b hname
    unfold sanitizeBlanketAt
    rw [hname]
    rfl
  · intro k b hnotes
    unfold sanitizeBlanketAt
    rw [hnotes]
    rfl

/-- Witness for C9: the concrete import under a fixed fresh supply, and
an id regeneration on a blanket entry that has no id. -/
theorem sanitize_import_example_witness :
    sanitizeImportedData exFresh exImportRaw = .ok exImportExpected
    ∧ (sanitizeBlanketAt exFresh 0 (.obj [("name", .str "X")])).1.id = exFresh 0 :=
  ⟨(sanitize_import_example exFresh).1,
   (sanitize_import_example exFresh).2.2.1 0 (.obj [("name", .str "X")])
     (fun s h => by simp [objGet] at h)⟩

/-- C10: import is atomic on error: a value that is not a truthy JS
object makes `sanitizeImportedData` throw, and the surrounding handler
leaves both the in-memory dataset and the stored blob exactly as they
were. -/
theorem import_atomic_on_error (fresh : Nat → String) (raw : JVal)
    (st : AppState)
    (h : ¬(truthy raw = true ∧ typeofIsObject raw = true)) :
    sanitizeImportedData fresh raw = .error "Invalid JSON object."
    ∧ tryImport fresh raw st = st := by
  have hcond : (truthy raw && typeofIsObject raw) = false := by
    cases hb : (truthy raw && typeofIsObject raw) with
    | false => rfl
    | true =>
      rw [Bool.and_eq_true] at hb
      exact absurd hb h
  have hsan : sanitizeImportedData fresh raw = .error "Invalid JSON object." := by
    simp [sanitizeImportedData, hcond]
  exact ⟨hsan, by simp [tryImport, importData, hsan]⟩

/-- Witness for C10: importing the number `5` fails and preserves a
populated app state. -/
theorem import_atomic_on_error_witness :
    sanitizeImportedData exFresh (.num (.fin 5)) = .error "Invalid JSON object."
    ∧ tryImport exFresh (.num (.fin 5)) exAppState = exAppState :=
  import_atomic_on_error exFresh (.num (.fin 5)) exAppState (by decide)

end Roo
